import Mathlib

/-!
Verification development for the `scikit-learn-mooc` notebooks
`02_numerical_pipeline_cross_validation.ipynb` and `03_categorical_pipeline.ipynb`.

The notebooks contain no algorithmic code of their own: every nontrivial
operation is a call into pandas / scikit-learn / numpy.  We therefore embed

* the K-fold splitting strategy used by `cross_validate(model, X, y, cv=K)`
  (scikit-learn `KFold` with `shuffle=False`): `n` samples are split into `K`
  contiguous folds, the first `n % K` folds of size `n / K + 1`, the rest of
  size `n / K`;
* the `OrdinalEncoder` / `OneHotEncoder` transformations, whose behaviour the
  notebooks document cell by cell (categories are the sorted distinct observed
  values; ordinal codes are positions in that sorted list; one-hot rows are
  indicator vectors, with `handle_unknown="ignore"` producing an all-zero
  block for unseen categories);
* the numpy aggregation `scores.mean()` / `scores.std()` (population standard
  deviation, `ddof=0`), modelled over exact arithmetic;
* a pandas-style column-indexed dataframe with `df[col]` and
  `df.drop(columns=col)`;
* the straight-line statement sequences of the two notebooks, over an
  abstract fallible library, to express exception propagation and the absence
  of interposed logic.
-/

/-! ### K-fold cross-validation (scikit-learn `KFold`, `shuffle=False`) -/

/-- Modelled from the spec: scikit-learn's `KFold` implementation is not in
this repository; the notebook describes the strategy (split into `K`
partitions).  Size of fold `i` when `n` samples are split into `K` folds:
the first `n % K` folds get one extra sample. -/
def foldSize (n K i : ℕ) : ℕ :=
  n / K + (if i < n % K then 1 else 0)

/-- Index of the first sample of fold `i` (folds are contiguous). -/
def foldStart (n K i : ℕ) : ℕ :=
  i * (n / K) + min i (n % K)

/-- The test indices of fold `i`: the contiguous block of `foldSize` samples
beginning at `foldStart`. -/
def testFoldIndices (n K i : ℕ) : List ℕ :=
  (List.range (foldSize n K i)).map (fun j => foldStart n K i + j)

/-- The train indices of fold `i`: every sample index that is not a test
index of fold `i`. -/
def trainFoldIndices (n K i : ℕ) : List ℕ :=
  (List.range n).filter (fun x => decide (¬ x ∈ testFoldIndices n K i))

/-- Modelled from the spec: scikit-learn's `cross_validate` is not in this
repository; the notebook describes it as repeating the fit/score procedure
`K` times.  The list of test scores: one fit/score round per fold, fitting
on the train indices and scoring on the test indices. -/
def crossValidate (fitScore : List ℕ → List ℕ → ℚ) (n K : ℕ) : List ℚ :=
  (List.range K).map (fun i => fitScore (trainFoldIndices n K i) (testFoldIndices n K i))

theorem foldStart_zero (n K : ℕ) : foldStart n K 0 = 0 := by
  simp [foldStart]

theorem foldStart_succ (n K i : ℕ) :
    foldStart n K (i + 1) = foldStart n K i + foldSize n K i := by
  unfold foldStart foldSize
  rcases Nat.lt_or_ge i (n % K) with h | h
  · rw [if_pos h, Nat.succ_mul]; omega
  · rw [if_neg (by omega : ¬ i < n % K), Nat.succ_mul]; omega

theorem foldStart_mono (n K : ℕ) {i j : ℕ} (h : i ≤ j) :
    foldStart n K i ≤ foldStart n K j := by
  unfold foldStart
  have h1 : i * (n / K) ≤ j * (n / K) := Nat.mul_le_mul_right _ h
  omega

theorem foldStart_last (n K : ℕ) (hK : 0 < K) : foldStart n K K = n := by
  unfold foldStart
  have h1 : n % K < K := Nat.mod_lt n hK
  have h2 : K * (n / K) + n % K = n := Nat.div_add_mod n K
  have h3 : min K (n % K) = n % K := by omega
  omega

theorem mem_testFoldIndices (n K i x : ℕ) :
    x ∈ testFoldIndices n K i ↔
      foldStart n K i ≤ x ∧ x < foldStart n K i + foldSize n K i := by
  simp only [testFoldIndices, List.mem_map, List.mem_range]
  constructor
  · rintro ⟨j, hj, rfl⟩; omega
  · rintro ⟨h1, h2⟩; exact ⟨x - foldStart n K i, by omega, by omega⟩

theorem mem_trainFoldIndices (n K i x : ℕ) :
    x ∈ trainFoldIndices n K i ↔ x < n ∧ ¬ x ∈ testFoldIndices n K i := by
  simp [trainFoldIndices, List.mem_filter, List.mem_range]

/-- Any sample index below the start of fold `m` lies in a unique earlier
fold interval. -/
theorem exists_fold_of_lt_foldStart (n K : ℕ) :
    ∀ m x, x < foldStart n K m →
      ∃ i, i < m ∧ foldStart n K i ≤ x ∧ x < foldStart n K (i + 1) := by
  intro m
  induction m with
  | zero => intro x hx; rw [foldStart_zero] at hx; omega
  | succ m ih =>
    intro x hx
    by_cases h : x < foldStart n K m
    · obtain ⟨i, hi, h1, h2⟩ := ih x h
      exact ⟨i, Nat.lt_succ_of_lt hi, h1, h2⟩
    · exact ⟨m, Nat.lt_succ_self m, by omega, hx⟩

theorem testFoldIndices_disjoint (n K : ℕ) {i j : ℕ} (hij : i ≠ j) {x : ℕ}
    (hi : x ∈ testFoldIndices n K i) (hj : x ∈ testFoldIndices n K j) : False := by
  rw [mem_testFoldIndices] at hi hj
  rcases Nat.lt_or_ge i j with h | h
  · have h1 : foldStart n K (i + 1) ≤ foldStart n K j := foldStart_mono n K h
    rw [foldStart_succ] at h1
    omega
  · have h2 : j < i := by omega
    have h1 : foldStart n K (j + 1) ≤ foldStart n K i := foldStart_mono n K h2
    rw [foldStart_succ] at h1
    omega

theorem testFoldIndices_cover (n K : ℕ) (hK : 0 < K) (x : ℕ) :
    x < n ↔ ∃ i, i < K ∧ x ∈ testFoldIndices n K i := by
  constructor
  · intro hx
    have hx' : x < foldStart n K K := by rw [foldStart_last n K hK]; exact hx
    obtain ⟨i, hi, h1, h2⟩ := exists_fold_of_lt_foldStart n K K x hx'
    refine ⟨i, hi, ?_⟩
    rw [mem_testFoldIndices]
    rw [foldStart_succ] at h2
    exact ⟨h1, h2⟩
  · rintro ⟨i, hi, hx⟩
    rw [mem_testFoldIndices] at hx
    have h1 : foldStart n K i + foldSize n K i = foldStart n K (i + 1) :=
      (foldStart_succ n K i).symm
    have h2 : foldStart n K (i + 1) ≤ foldStart n K K :=
      foldStart_mono n K (by omega)
    rw [foldStart_last n K hK] at h2
    omega

theorem foldSize_pos (n K i : ℕ) (hK : 0 < K) (hKn : K ≤ n) :
    0 < foldSize n K i := by
  unfold foldSize
  have h1 : 1 ≤ n / K := (Nat.one_le_div_iff hK).mpr hKn
  omega

/-- The K-fold claim: splitting `n` samples with `cv = K` yields `K` test
partitions that are nonempty, pairwise disjoint, and together cover the whole
dataset; each round fits on exactly the complement of its test partition
(the union of the other `K - 1` partitions) and `cross_validate` collects one
score per round. -/
def kfoldPartitionClaim (n K : ℕ) : Prop :=
  (((List.range K).map (testFoldIndices n K)).length = K) ∧
  (∀ i, i < K → testFoldIndices n K i ≠ []) ∧
  (∀ i j, i < K → j < K → i ≠ j →
    ∀ x, x ∈ testFoldIndices n K i → ¬ x ∈ testFoldIndices n K j) ∧
  (∀ x, x < n ↔ ∃ i, i < K ∧ x ∈ testFoldIndices n K i) ∧
  (∀ i, i < K → ∀ x,
    x ∈ trainFoldIndices n K i ↔ ∃ j, j < K ∧ j ≠ i ∧ x ∈ testFoldIndices n K j) ∧
  (∀ fitScore : List ℕ → List ℕ → ℚ, (crossValidate fitScore n K).length = K)

/-- C1: for every `K ≥ 2` (with at least `K` samples), `cv = K` splits the
dataset into `K` pairwise disjoint partitions covering the whole dataset, and
the fit/score procedure is repeated `K` times, each round fitting on the
other `K - 1` partitions and scoring on the remaining one. -/
theorem cross_validate_kfold_partition (n K : ℕ) (h2 : 2 ≤ K) (hKn : K ≤ n) :
    kfoldPartitionClaim n K := by
  have hK : 0 < K := by omega
  refine ⟨by simp, ?_, ?_, testFoldIndices_cover n K hK, ?_, ?_⟩
  · intro i _
    have h := foldSize_pos n K i hK hKn
    intro hnil
    have : (testFoldIndices n K i).length = 0 := by rw [hnil]; rfl
    simp [testFoldIndices] at this
    omega
  · intro i j _ _ hij x hxi hxj
    exact testFoldIndices_disjoint n K hij hxi hxj
  · intro i hi x
    rw [mem_trainFoldIndices]
    constructor
    · rintro ⟨hxn, hxt⟩
      obtain ⟨j, hj, hxj⟩ := (testFoldIndices_cover n K hK x).mp hxn
      refine ⟨j, hj, ?_, hxj⟩
      intro hji
      exact hxt (hji ▸ hxj)
    · rintro ⟨j, hj, hji, hxj⟩
      refine ⟨(testFoldIndices_cover n K hK x).mpr ⟨j, hj, hxj⟩, ?_⟩
      intro hxi
      exact testFoldIndices_disjoint n K hji hxj hxi
  · intro fitScore
    simp [crossValidate]

/-- Witness for C1 at `n = 12`, `K = 5`. -/
theorem cross_validate_kfold_partition_witness :
    2 ≤ 5 ∧ 5 ≤ 12 ∧ kfoldPartitionClaim 12 5 :=
  ⟨by decide, by decide,
    cross_validate_kfold_partition 12 5 (by decide) (by decide)⟩

/-! ### Categorical encoders (`OrdinalEncoder` / `OneHotEncoder`)

`fit` infers the categories of a column as the lexicographically sorted list
of distinct observed values (`categories_`); `OrdinalEncoder.transform`
replaces a value by its position in that list; `OneHotEncoder.transform`
replaces a value by the indicator vector over that list. -/

/-- Modelled from the spec: scikit-learn's encoder `fit` is not in this
repository; the notebook describes the fitted `categories_` as the distinct
observed values in sorted (for strings: lexicographic) order. -/
def categoriesOf {α : Type} [LinearOrder α] (col : List α) : List α :=
  col.dedup.insertionSort (· ≤ ·)

/-- Modelled from the spec: `OrdinalEncoder.transform` is not in this
repository; the notebook describes it as replacing each category by the
number of its position.  Ordinal code of value `v`: its index in the fitted
sorted category list. -/
def ordinalCode {α : Type} [LinearOrder α] (col : List α) (v : α) : ℕ :=
  (categoriesOf col).indexOf v

/-- `OrdinalEncoder().fit_transform` on a single column. -/
def ordinalEncodeColumn {α : Type} [LinearOrder α] (col : List α) : List ℕ :=
  col.map (ordinalCode col)

/-- `OrdinalEncoder().fit_transform` on a table given as a list of columns:
each column is encoded independently. -/
def ordinalEncodeTable {α : Type} [LinearOrder α] (cols : List (List α)) :
    List (List ℕ) :=
  cols.map ordinalEncodeColumn

/-- Modelled from the spec: `OneHotEncoder.transform` is not in this
repository; the notebook describes it as setting the column of the sample
category to 1 and all other categories' columns to 0.  One-hot indicator
row of value `v` over the fitted category list. -/
def oneHotRow {α : Type} [DecidableEq α] (cats : List α) (v : α) : List ℕ :=
  cats.map (fun c => if v = c then 1 else 0)

/-- `OneHotEncoder().fit_transform` on a single column: one indicator row per
sample. -/
def oneHotEncodeColumn {α : Type} [LinearOrder α] (col : List α) :
    List (List ℕ) :=
  col.map (oneHotRow (categoriesOf col))

/-- `OneHotEncoder().fit_transform` on a table given as a list of columns,
returned as the list of output columns: for each input column, one output
column per fitted category. -/
def oneHotEncodeTable {α : Type} [LinearOrder α] (cols : List (List α)) :
    List (List ℕ) :=
  (cols.map (fun col =>
    (categoriesOf col).map (fun c => col.map (fun v => if v = c then 1 else 0)))).flatten

theorem categoriesOf_sorted {α : Type} [LinearOrder α] (col : List α) :
    (categoriesOf col).Sorted (· ≤ ·) :=
  List.sorted_insertionSort _ _

theorem categoriesOf_perm {α : Type} [LinearOrder α] (col : List α) :
    List.Perm (categoriesOf col) col.dedup :=
  List.perm_insertionSort _ _

theorem categoriesOf_nodup {α : Type} [LinearOrder α] (col : List α) :
    (categoriesOf col).Nodup :=
  (categoriesOf_perm col).nodup_iff.mpr (List.nodup_dedup col)

theorem categoriesOf_sorted_lt {α : Type} [LinearOrder α] (col : List α) :
    (categoriesOf col).Sorted (· < ·) :=
  (categoriesOf_sorted col).lt_of_le (categoriesOf_nodup col)

theorem mem_categoriesOf {α : Type} [LinearOrder α] {col : List α} {a : α} :
    a ∈ categoriesOf col ↔ a ∈ col := by
  rw [(categoriesOf_perm col).mem_iff, List.mem_dedup]

theorem categoriesOf_length {α : Type} [LinearOrder α] (col : List α) :
    (categoriesOf col).length = col.dedup.length :=
  (categoriesOf_perm col).length_eq

/-- The ordinal-encoding claim for a column and two observed labels `a`, `b`:
codes lie in `{0, ..., k-1}` for `k` the number of distinct labels, distinct
labels get distinct codes, and codes are ordered exactly as the labels. -/
def ordinalCodeClaim {α : Type} [LinearOrder α] (col : List α) (a b : α) : Prop :=
  ordinalCode col a < col.dedup.length ∧
  (ordinalCode col a = ordinalCode col b ↔ a = b) ∧
  (a < b ↔ ordinalCode col a < ordinalCode col b)

/-- A strictly smaller ordinal code comes from a strictly smaller label. -/
theorem ordinalCode_lt_of_lt {α : Type} [LinearOrder α] {col : List α} {a b : α}
    (ha : a ∈ col) (hb : b ∈ col)
    (h : ordinalCode col a < ordinalCode col b) : a < b := by
  have ha' : a ∈ categoriesOf col := mem_categoriesOf.mpr ha
  have hb' : b ∈ categoriesOf col := mem_categoriesOf.mpr hb
  have hla : ordinalCode col a < (categoriesOf col).length :=
    List.indexOf_lt_length.mpr ha'
  have hlb : ordinalCode col b < (categoriesOf col).length :=
    List.indexOf_lt_length.mpr hb'
  have hrel := (categoriesOf_sorted_lt col).rel_get_of_lt
    (a := ⟨ordinalCode col a, hla⟩) (b := ⟨ordinalCode col b, hlb⟩) h
  simp only [ordinalCode] at hrel
  rwa [List.indexOf_get, List.indexOf_get] at hrel

/-- C3: `OrdinalEncoder.fit_transform` maps each distinct category label to a
distinct integer in `{0, ..., k-1}` (`k` = number of distinct labels), and by
default the codes follow the sort order of the labels: `a` precedes `b`
exactly when `code(a) < code(b)`. -/
theorem ordinalEncoder_lexicographic {α : Type} [LinearOrder α]
    (col : List α) (a b : α) (ha : a ∈ col) (hb : b ∈ col) :
    ordinalCodeClaim col a b := by
  have ha' : a ∈ categoriesOf col := mem_categoriesOf.mpr ha
  have hb' : b ∈ categoriesOf col := mem_categoriesOf.mpr hb
  refine ⟨?_, ?_, ?_, ?_⟩
  · rw [← categoriesOf_length]
    exact List.indexOf_lt_length.mpr ha'
  · exact List.indexOf_inj ha' hb'
  · intro hab
    rcases Nat.lt_trichotomy (ordinalCode col a) (ordinalCode col b) with h | h | h
    · exact h
    · exact absurd ((List.indexOf_inj ha' hb').mp h) (ne_of_lt hab)
    · exact absurd (ordinalCode_lt_of_lt hb ha h) (lt_asymm hab)
  · exact ordinalCode_lt_of_lt ha hb

/-- Witness for C3 on the spec example sizes S, M, L, XL (strings modelled
as character lists, ordered lexicographically): they get codes 2, 1, 0, 3. -/
theorem ordinalEncoder_lexicographic_witness :
    (['L'] : List Char) ∈ [['S'], ['M'], ['L'], ['X', 'L']] ∧
    (['S'] : List Char) ∈ [['S'], ['M'], ['L'], ['X', 'L']] ∧
    ordinalCodeClaim [['S'], ['M'], ['L'], ['X', 'L']] ['L'] ['S'] :=
  ⟨by decide, by decide,
    ordinalEncoder_lexicographic _ _ _ (by decide) (by decide)⟩

theorem oneHotRow_length {α : Type} [DecidableEq α] (cats : List α) (v : α) :
    (oneHotRow cats v).length = cats.length :=
  List.length_map _ _

theorem oneHotRow_count_zero {α : Type} [DecidableEq α] {cats : List α} {v : α}
    (hv : ¬ v ∈ cats) : (oneHotRow cats v).count 1 = 0 := by
  induction cats with
  | nil => rfl
  | cons c cs ih =>
    have h1 : ¬ v = c := fun h => hv (h ▸ List.mem_cons_self c cs)
    have h2 : ¬ v ∈ cs := fun h => hv (List.mem_cons_of_mem c h)
    simp only [oneHotRow, List.map_cons, List.count_cons, if_neg h1] at *
    simp [ih h2]

theorem oneHotRow_count_one {α : Type} [DecidableEq α] {cats : List α} {v : α}
    (hnd : cats.Nodup) (hv : v ∈ cats) : (oneHotRow cats v).count 1 = 1 := by
  induction cats with
  | nil => exact absurd hv (List.not_mem_nil v)
  | cons c cs ih =>
    rcases List.nodup_cons.mp hnd with ⟨hc, hcs⟩
    by_cases hvc : v = c
    · subst hvc
      have h0 : (oneHotRow cs v).count 1 = 0 := oneHotRow_count_zero hc
      simp [oneHotRow, List.count_cons]
      simpa [oneHotRow] using h0
    · have hv' : v ∈ cs := by
        rcases List.mem_cons.mp hv with h | h
        · exact absurd h hvc
        · exact h
      have h1 := ih hcs hv'
      simp [oneHotRow, List.count_cons, if_neg hvc] at *
      simp [h1]

theorem oneHotRow_get_self {α : Type} [DecidableEq α] {cats : List α} {v : α}
    (hv : v ∈ cats) (h : cats.indexOf v < (oneHotRow cats v).length) :
    (oneHotRow cats v).get ⟨cats.indexOf v, h⟩ = 1 := by
  have h1 : cats.indexOf v < cats.length := List.indexOf_lt_length.mpr hv
  simp [oneHotRow, List.get_eq_getElem, List.getElem_map,
    List.getElem_indexOf h1]

theorem oneHotRow_get_other {α : Type} [DecidableEq α] {cats : List α} {v : α}
    (hnd : cats.Nodup) (hv : v ∈ cats) {j : ℕ}
    (h : j < (oneHotRow cats v).length) (hne : j ≠ cats.indexOf v) :
    (oneHotRow cats v).get ⟨j, h⟩ = 0 := by
  have hj : j < cats.length := by
    rw [← oneHotRow_length cats v]; exact h
  have h1 : cats.indexOf v < cats.length := List.indexOf_lt_length.mpr hv
  simp only [oneHotRow, List.get_eq_getElem, List.getElem_map]
  rw [if_neg]
  intro hvj
  apply hne
  have hg : cats[j] = cats[cats.indexOf v] := by
    rw [List.getElem_indexOf h1, ← hvj]
  exact ((hnd.getElem_inj_iff).mp hg.symm).symm

/-- The one-hot claim at a column and one of its samples. -/
def oneHotColumnClaim {α : Type} [LinearOrder α] (col : List α) (v : α) : Prop :=
  ((categoriesOf col).length = col.dedup.length ∧
    ∀ c, c ∈ categoriesOf col ↔ c ∈ col) ∧
  oneHotRow (categoriesOf col) v ∈ oneHotEncodeColumn col ∧
  (oneHotRow (categoriesOf col) v).length = col.dedup.length ∧
  (∀ h : (categoriesOf col).indexOf v < (oneHotRow (categoriesOf col) v).length,
    (oneHotRow (categoriesOf col) v).get ⟨(categoriesOf col).indexOf v, h⟩ = 1) ∧
  (∀ j, ∀ h : j < (oneHotRow (categoriesOf col) v).length,
    j ≠ (categoriesOf col).indexOf v →
    (oneHotRow (categoriesOf col) v).get ⟨j, h⟩ = 0) ∧
  (oneHotRow (categoriesOf col) v).count 1 = 1

/-- C2: `OneHotEncoder.fit_transform` produces exactly one indicator column
per distinct observed category; for every sample, the column of the sample
category holds 1 and every other column holds 0, so each row contains exactly
one 1. -/
theorem oneHotEncoder_indicator {α : Type} [LinearOrder α]
    (col : List α) (v : α) (hv : v ∈ col) : oneHotColumnClaim col v := by
  have hv' : v ∈ categoriesOf col := mem_categoriesOf.mpr hv
  refine ⟨⟨categoriesOf_length col, fun c => mem_categoriesOf⟩, ?_, ?_, ?_, ?_, ?_⟩
  · exact List.mem_map.mpr ⟨v, hv, rfl⟩
  · rw [oneHotRow_length, categoriesOf_length]
  · intro h; exact oneHotRow_get_self hv' h
  · intro j h hne; exact oneHotRow_get_other (categoriesOf_nodup col) hv' h hne
  · exact oneHotRow_count_one (categoriesOf_nodup col) hv'

/-- Witness for C2 on a three-sample column with categories a, b. -/
theorem oneHotEncoder_indicator_witness :
    (['b'] : List Char) ∈ [['a'], ['b'], ['a']] ∧
    oneHotColumnClaim [['a'], ['b'], ['a']] ['b'] :=
  ⟨by decide, oneHotEncoder_indicator _ _ (by decide)⟩

/-! ### `OneHotEncoder(handle_unknown="ignore")` on multi-feature samples

`transform` encodes each feature independently against its fitted category
list and concatenates the blocks; with `handle_unknown="ignore"` an unseen
value yields an all-zero block instead of an error. -/

/-- Encode one feature value against its fitted categories; `handleIgn` is
the `handle_unknown="ignore"` flag, and `none` models the error raised on an
unknown value without it. -/
def oheFeature {α : Type} [DecidableEq α] (handleIgn : Bool) (cats : List α)
    (v : α) : Option (List ℕ) :=
  if v ∈ cats ∨ handleIgn = true then some (oneHotRow cats v) else none

/-- Encode a full sample (one value per feature), concatenating the
per-feature indicator blocks; any feature error aborts the transform. -/
def oheTransformRow {α : Type} [DecidableEq α] (handleIgn : Bool) :
    List (List α) → List α → Option (List ℕ)
  | [], [] => some []
  | cats :: cs, v :: vs =>
    match oheFeature handleIgn cats v, oheTransformRow handleIgn cs vs with
    | some h, some t => some (h ++ t)
    | _, _ => none
  | _, _ => none

theorem oheFeature_ignore {α : Type} [DecidableEq α] (cats : List α) (v : α) :
    oheFeature true cats v = some (oneHotRow cats v) := by
  simp [oheFeature]

theorem oheTransformRow_ignore {α : Type} [DecidableEq α] :
    ∀ (catss : List (List α)) (vs : List α), catss.length = vs.length →
      oheTransformRow true catss vs =
        some ((List.zipWith oneHotRow catss vs).flatten) := by
  intro catss
  induction catss with
  | nil => intro vs h; cases vs with
    | nil => rfl
    | cons v vs => simp at h
  | cons cats cs ih =>
    intro vs h
    cases vs with
    | nil => simp at h
    | cons v vs =>
      have h' : cs.length = vs.length := by simpa using h
      simp [oheTransformRow, oheFeature_ignore, ih vs h']

theorem oneHotRow_all_zero {α : Type} [DecidableEq α] {cats : List α} {v : α}
    (hv : ¬ v ∈ cats) : ∀ x ∈ oneHotRow cats v, x = 0 := by
  intro x hx
  rcases List.mem_map.mp hx with ⟨c, hc, rfl⟩
  rw [if_neg]
  intro h
  exact hv (h ▸ hc)

/-- The handle-unknown-ignore claim at fitted categories `catss`, sample
`vs`, and feature position `j`. -/
def oneHotIgnoreClaim {α : Type} [DecidableEq α]
    (catss : List (List α)) (vs : List α) (j : ℕ) : Prop :=
  oheTransformRow true catss vs =
    some ((List.zipWith oneHotRow catss vs).flatten) ∧
  (∀ i (hi : i < catss.length) (hv : i < vs.length),
    (List.zipWith oneHotRow catss vs)[i]? =
      some (oneHotRow (catss.get ⟨i, hi⟩) (vs.get ⟨i, hv⟩))) ∧
  (∀ hj : j < catss.length, ∀ hv : j < vs.length,
    ¬ vs.get ⟨j, hv⟩ ∈ catss.get ⟨j, hj⟩ →
    (oneHotRow (catss.get ⟨j, hj⟩) (vs.get ⟨j, hv⟩)).length =
        (catss.get ⟨j, hj⟩).length ∧
    ∀ x ∈ oneHotRow (catss.get ⟨j, hj⟩) (vs.get ⟨j, hv⟩), x = 0)

/-- C8: with `handle_unknown="ignore"`, transforming a sample whose value at
feature `j` was not seen during fitting raises no error: the transform
succeeds, every indicator entry of that feature block is 0, and every other
feature block is its ordinary indicator row. -/
theorem oneHotEncoder_handle_unknown_ignore {α : Type} [DecidableEq α]
    (catss : List (List α)) (vs : List α) (j : ℕ)
    (hlen : catss.length = vs.length) : oneHotIgnoreClaim catss vs j := by
  refine ⟨oheTransformRow_ignore catss vs hlen, ?_, ?_⟩
  · intro i hi hv
    rw [List.getElem?_zipWith]
    simp [List.getElem?_eq_getElem, hi, hv]
  · intro hj hv hunk
    exact ⟨List.length_map _ _, oneHotRow_all_zero hunk⟩

/-- Witness for C8: second feature value c unseen among fitted categories. -/
theorem oneHotEncoder_handle_unknown_ignore_witness :
    ([[['a'], ['b']], [['x'], ['y']]] : List (List (List Char))).length =
      ([['b'], ['c']] : List (List Char)).length ∧
    oneHotIgnoreClaim [[['a'], ['b']], [['x'], ['y']]] [['b'], ['c']] 1 :=
  ⟨by decide, oneHotEncoder_handle_unknown_ignore _ _ 1 (by decide)⟩

/-! ### Shape invariants of the two encoders -/

theorem ordinalEncodeColumn_length {α : Type} [LinearOrder α] (col : List α) :
    (ordinalEncodeColumn col).length = col.length :=
  List.length_map _ _

/-- The shape claim for encoding a table (a list of columns of `n` samples):
ordinal encoding preserves both the column count and each column's sample
count; one-hot encoding preserves the sample count but outputs one column per
(feature, distinct category) pair. -/
def encoderShapeClaim {α : Type} [LinearOrder α] (cols : List (List α)) (n : ℕ) : Prop :=
  (ordinalEncodeTable cols).length = cols.length ∧
  (∀ i (hi : i < cols.length) (h2 : i < (ordinalEncodeTable cols).length),
    ((ordinalEncodeTable cols).get ⟨i, h2⟩).length = (cols.get ⟨i, hi⟩).length) ∧
  (oneHotEncodeTable cols).length = (cols.map (fun col => col.dedup.length)).sum ∧
  ((∀ col ∈ cols, col.length = n) →
    ∀ out ∈ oneHotEncodeTable cols, out.length = n)

/-- C9: `OrdinalEncoder.fit_transform` returns as many columns as the input
and as many samples per column as the input, while
`OneHotEncoder.fit_transform` keeps the sample count and returns a number of
columns equal to the sum over input features of the number of distinct
categories of that feature. -/
theorem encoder_output_shapes {α : Type} [LinearOrder α]
    (cols : List (List α)) (n : ℕ) : encoderShapeClaim cols n := by
  refine ⟨List.length_map _ _, ?_, ?_, ?_⟩
  · intro i hi h2
    simp [ordinalEncodeTable, ordinalEncodeColumn]
  · simp only [oneHotEncodeTable, List.length_flatten, List.map_map]
    refine congrArg List.sum (List.map_congr_left ?_)
    intro col _
    simp [Function.comp, categoriesOf_length]
  · intro hrect out hout
    rcases List.mem_flatten.mp hout with ⟨group, hg, hog⟩
    rcases List.mem_map.mp hg with ⟨col, hcol, rfl⟩
    rcases List.mem_map.mp hog with ⟨c, _, rfl⟩
    rw [List.length_map]
    exact hrect col hcol

/-! ### Aggregation of the cross-validation scores (`scores.mean()` / `scores.std()`)

numpy semantics, over exact arithmetic: `mean` is the sum divided by the
number of elements, `std` the square root of the population variance
(default `ddof = 0`). -/

/-- Modelled from the spec: numpy's `mean` is not in this repository;
`scores.mean()` is the sum divided by the number of scores. -/
def npMean (xs : List ℚ) : ℚ := xs.sum / xs.length

/-- The population variance (`ddof = 0`) under the square root of
`scores.std()`. -/
def npVariance (xs : List ℚ) : ℚ :=
  (xs.map (fun x => (x - npMean xs) ^ 2)).sum / xs.length

/-- Modelled from the spec: numpy's `std` is not in this repository;
`scores.std()` is the square root of the population variance. -/
noncomputable def npStd (xs : List ℚ) : ℝ := Real.sqrt (npVariance xs)

/-- The claim's reported performance: the arithmetic mean, sum of the `K`
scores divided by `K`. -/
def specMeanOfScores (xs : List ℚ) (K : ℕ) : ℚ := xs.sum / K

/-- The claim's reported variability: the square root of the mean squared
deviation from the mean, over the `K` scores. -/
noncomputable def specStdOfScores (xs : List ℚ) (K : ℕ) : ℝ :=
  Real.sqrt ((((xs.map (fun x => (x - specMeanOfScores xs K) ^ 2)).sum / K : ℚ) : ℝ))

theorem npVariance_nonneg (xs : List ℚ) : 0 ≤ npVariance xs := by
  apply div_nonneg
  · apply List.sum_nonneg
    intro x hx
    rcases List.mem_map.mp hx with ⟨y, _, rfl⟩
    exact sq_nonneg _
  · exact Nat.cast_nonneg _

/-- The aggregation claim for a list of `K` scores: the reported mean is the
arithmetic mean and the reported variability is the population standard
deviation of the scores. -/
def meanStdClaim (xs : List ℚ) (K : ℕ) : Prop :=
  npMean xs = specMeanOfScores xs K ∧
  npStd xs = specStdOfScores xs K ∧
  npMean xs * K = xs.sum ∧
  npStd xs ^ 2 * K = (((xs.map (fun x => (x - npMean xs) ^ 2)).sum : ℚ) : ℝ) ∧
  0 ≤ npStd xs

theorem mean_std_of_length (xs : List ℚ) (K : ℕ) (hK : 0 < K)
    (hlen : xs.length = K) : meanStdClaim xs K := by
  have hK0 : ((K : ℚ)) ≠ 0 := by
    exact_mod_cast Nat.pos_iff_ne_zero.mp hK
  have hKR : ((K : ℝ)) ≠ 0 := by
    exact_mod_cast Nat.pos_iff_ne_zero.mp hK
  have hmean : npMean xs = specMeanOfScores xs K := by
    rw [npMean, specMeanOfScores, hlen]
  refine ⟨hmean, ?_, ?_, ?_, Real.sqrt_nonneg _⟩
  · rw [npStd, specStdOfScores, npVariance, hlen, hmean]
  · rw [npMean, hlen, div_mul_cancel₀ _ hK0]
  · rw [npStd, Real.sq_sqrt (by exact_mod_cast npVariance_nonneg xs), npVariance, hlen]
    push_cast
    rw [div_mul_cancel₀ _ hKR]

/-- C6: the notebooks report `scores.mean()` and `scores.std()` over the `K`
test scores collected by `cross_validate`: the reported performance is their
arithmetic mean (sum divided by `K`) and the reported variability their
standard deviation (square root of the mean squared deviation from that
mean). -/
theorem cross_validate_report_mean_std
    (fitScore : List ℕ → List ℕ → ℚ) (n K : ℕ) (hK : 0 < K) :
    (crossValidate fitScore n K).length = K ∧
      meanStdClaim (crossValidate fitScore n K) K := by
  have hlen : (crossValidate fitScore n K).length = K := by
    simp [crossValidate]
  exact ⟨hlen, mean_std_of_length _ K hK hlen⟩

/-- Witness for C6 at a constant scoring function, `n = 10`, `K = 5`. -/
theorem cross_validate_report_mean_std_witness :
    0 < 5 ∧
      ((crossValidate (fun _ _ => (0 : ℚ)) 10 5).length = 5 ∧
        meanStdClaim (crossValidate (fun _ _ => (0 : ℚ)) 10 5) 5) :=
  ⟨by decide, cross_validate_report_mean_std (fun _ _ => (0 : ℚ)) 10 5 (by decide)⟩

/-! ### pandas dataframes: `df[name]` and `df.drop(columns=name)`

`drop` (without `inplace=True`) returns a new frame; mutation is absent by
construction in this functional model, matching the pandas default the
notebooks use. -/

/-- A column-indexed dataframe: named columns in order. -/
structure DataFrame (α : Type) where
  cols : List (String × List α)

/-- Modelled from the spec: pandas column selection is not in this
repository.  `df[name]`: the first column with that name, if any. -/
def DataFrame.getCol {α : Type} (df : DataFrame α) (name : String) :
    Option (List α) :=
  df.cols.lookup name

/-- Modelled from the spec: pandas `drop` is not in this repository.
`df.drop(columns=name)`: every column except those named `name`, in the
original order, as a new frame. -/
def DataFrame.dropCol {α : Type} (df : DataFrame α) (name : String) :
    DataFrame α :=
  ⟨df.cols.filter (fun p => !(p.1 == name))⟩

/-- The ordered list of column names of a dataframe. -/
def DataFrame.names {α : Type} (df : DataFrame α) : List String :=
  df.cols.map Prod.fst

theorem names_dropCol {α : Type} (df : DataFrame α) (c : String) :
    (df.dropCol c).names = df.names.filter (fun s => !(s == c)) := by
  show ((df.cols.filter _).map Prod.fst) = (df.cols.map Prod.fst).filter _
  induction df.cols with
  | nil => rfl
  | cons p ps ih =>
    by_cases h : p.1 = c
    · simp [List.filter_cons, h, ih]
    · simp [List.filter_cons, h, ih]

theorem getCol_dropCol_self {α : Type} (df : DataFrame α) (c : String) :
    (df.dropCol c).getCol c = none := by
  show (df.cols.filter _).lookup c = none
  induction df.cols with
  | nil => rfl
  | cons p ps ih =>
    by_cases h : p.1 = c
    · simpa [List.filter_cons, h] using ih
    · have h2 : (c == p.1) = false := by
        simp only [beq_eq_false_iff_ne, ne_eq]
        intro hc
        exact h hc.symm
      simp only [List.filter_cons, beq_eq_false_iff_ne.mpr h, Bool.not_false,
        if_pos rfl, List.lookup, h2]
      exact ih

theorem getCol_dropCol_ne {α : Type} (df : DataFrame α) (c s : String)
    (hs : ¬ s = c) : (df.dropCol c).getCol s = df.getCol s := by
  show (df.cols.filter _).lookup s = df.cols.lookup s
  induction df.cols with
  | nil => rfl
  | cons p ps ih =>
    by_cases h : p.1 = c
    · have h2 : (s == p.1) = false := by
        simp only [beq_eq_false_iff_ne, ne_eq]
        intro hc
        exact hs (hc.trans h)
      simp only [List.filter_cons, beq_iff_eq.mpr h, Bool.not_true]
      rw [if_neg (by decide)]
      simp only [List.lookup, h2]
      exact ih
    · simp only [List.filter_cons, beq_eq_false_iff_ne.mpr h, Bool.not_false,
        if_pos rfl, List.lookup]
      cases hsp : (s == p.1) with
      | true => rfl
      | false => exact ih

/-- The target-separation claim for a frame `df` and a column name `c`:
after `target = df[c]` and `data = df.drop(columns=c)`, `data` holds exactly
the non-`c` columns of `df` in their original order, `data` no longer holds
`c`, and every lookup in `df` is recovered from `target` and `data`. -/
def dropTargetClaim {α : Type} (df : DataFrame α) (c : String) : Prop :=
  ((df.dropCol c).names = df.names.filter (fun s => !(s == c))) ∧
  ((df.dropCol c).getCol c = none) ∧
  (∀ s, ¬ s = c → (df.dropCol c).getCol s = df.getCol s) ∧
  (∀ s, df.getCol s =
    if s = c then df.getCol c else (df.dropCol c).getCol s)

/-- C10: separating the target from the features keeps all information: the
dropped frame carries exactly the other columns in order, the target carries
the `c` column, and the original frame is untouched (the model is
functional, as is pandas `drop` without `inplace`). -/
theorem drop_target_separation {α : Type} (df : DataFrame α) (c : String) :
    dropTargetClaim df c := by
  refine ⟨names_dropCol df c, getCol_dropCol_self df c,
    fun s hs => getCol_dropCol_ne df c s hs, ?_⟩
  intro s
  by_cases h : s = c
  · rw [if_pos h, h]
  · rw [if_neg h, getCol_dropCol_ne df c s h]

/-! ### The notebooks as compositions of library calls

Both notebooks are straight-line sequences of bindings whose right-hand
sides are single library invocations.  We embed each notebook once as its
cell-by-cell `let` sequence and once, following the spec, as the bare
composition of the invoked library functions, over abstract library
operations on an abstract value type `V`. -/

/-- The numeric columns selected by notebook 02. -/
def numericalColumns : List String :=
  ["age", "capital-gain", "capital-loss", "hours-per-week"]

/-- Notebook 02 (`02_numerical_pipeline_cross_validation.ipynb`), cell by
cell: load, separate target, select numeric columns, build the
scaler+regression pipeline, run `cross_validate(model, data_numeric, target,
cv=5)`, extract `test_score`, report mean and std. -/
def notebook02Report {V R : Type} (readCsv : String → V)
    (getColumn : V → String → V) (dropColumns : V → String → V)
    (selectColumns : V → List String → V) (standardScaler : V)
    (logisticRegression : Option ℕ → V) (makePipeline : V → V → V)
    (crossValidateF : V → V → V → Option ℕ → V) (getItem : V → String → V)
    (mean std : V → R) : R × R :=
  let adult_census := readCsv "../datasets/adult-census.csv"
  let target := getColumn adult_census "class"
  let data := dropColumns adult_census "class"
  let data_numeric := selectColumns data numericalColumns
  let model := makePipeline standardScaler (logisticRegression none)
  let cv_result := crossValidateF model data_numeric target (some 5)
  let scores := getItem cv_result "test_score"
  (mean scores, std scores)

/-- Notebook 02 as the spec describes it: the bare composition of the
invoked library functions, with nothing interposed. -/
def notebook02Composed {V R : Type} (readCsv : String → V)
    (getColumn : V → String → V) (dropColumns : V → String → V)
    (selectColumns : V → List String → V) (standardScaler : V)
    (logisticRegression : Option ℕ → V) (makePipeline : V → V → V)
    (crossValidateF : V → V → V → Option ℕ → V) (getItem : V → String → V)
    (mean std : V → R) : R × R :=
  (mean (getItem
      (crossValidateF (makePipeline standardScaler (logisticRegression none))
        (selectColumns (dropColumns (readCsv "../datasets/adult-census.csv") "class")
          numericalColumns)
        (getColumn (readCsv "../datasets/adult-census.csv") "class") (some 5))
      "test_score"),
   std (getItem
      (crossValidateF (makePipeline standardScaler (logisticRegression none))
        (selectColumns (dropColumns (readCsv "../datasets/adult-census.csv") "class")
          numericalColumns)
        (getColumn (readCsv "../datasets/adult-census.csv") "class") (some 5))
      "test_score"))

/-- Notebook 03 (`03_categorical_pipeline.ipynb`), cell by cell: load, drop
the duplicated `education-num` column, separate target, select the
object-dtype columns, build the one-hot+regression pipeline with
`handle_unknown="ignore"` and `max_iter=500`, run `cross_validate` with the
default splitting, extract `test_score`, report mean and std. -/
def notebook03Report {V R : Type} (readCsv : String → V)
    (getColumn : V → String → V) (dropColumns : V → String → V)
    (selectObjectColumns : V → V) (selectColumnsBy : V → V → V)
    (oneHotEncoder : Bool → V) (logisticRegression : Option ℕ → V)
    (makePipeline : V → V → V) (crossValidateF : V → V → V → Option ℕ → V)
    (getItem : V → String → V) (mean std : V → R) : R × R :=
  let adult_census := readCsv "../datasets/adult-census.csv"
  let adult_census2 := dropColumns adult_census "education-num"
  let target := getColumn adult_census2 "class"
  let data := dropColumns adult_census2 "class"
  let categorical_columns := selectObjectColumns data
  let data_categorical := selectColumnsBy data categorical_columns
  let model := makePipeline (oneHotEncoder true) (logisticRegression (some 500))
  let cv_results := crossValidateF model data_categorical target none
  let scores := getItem cv_results "test_score"
  (mean scores, std scores)

/-- Notebook 03 as the spec describes it: the bare composition of the
invoked library functions. -/
def notebook03Composed {V R : Type} (readCsv : String → V)
    (getColumn : V → String → V) (dropColumns : V → String → V)
    (selectObjectColumns : V → V) (selectColumnsBy : V → V → V)
    (oneHotEncoder : Bool → V) (logisticRegression : Option ℕ → V)
    (makePipeline : V → V → V) (crossValidateF : V → V → V → Option ℕ → V)
    (getItem : V → String → V) (mean std : V → R) : R × R :=
  (mean (getItem
      (crossValidateF (makePipeline (oneHotEncoder true) (logisticRegression (some 500)))
        (selectColumnsBy
          (dropColumns (dropColumns (readCsv "../datasets/adult-census.csv") "education-num") "class")
          (selectObjectColumns
            (dropColumns (dropColumns (readCsv "../datasets/adult-census.csv") "education-num") "class")))
        (getColumn (dropColumns (readCsv "../datasets/adult-census.csv") "education-num") "class")
        none)
      "test_score"),
   std (getItem
      (crossValidateF (makePipeline (oneHotEncoder true) (logisticRegression (some 500)))
        (selectColumnsBy
          (dropColumns (dropColumns (readCsv "../datasets/adult-census.csv") "education-num") "class")
          (selectObjectColumns
            (dropColumns (dropColumns (readCsv "../datasets/adult-census.csv") "education-num") "class")))
        (getColumn (dropColumns (readCsv "../datasets/adult-census.csv") "education-num") "class")
        none)
      "test_score"))

/-- C4: for every interpretation of the library, each notebook's report is
exactly the composition of the invoked library functions: no algorithmic
logic is interposed between the calls. -/
theorem notebooks_are_library_compositions {V R : Type}
    (readCsv : String → V) (getColumn : V → String → V)
    (dropColumns : V → String → V) (selectColumns : V → List String → V)
    (selectObjectColumns : V → V) (selectColumnsBy : V → V → V)
    (standardScaler : V) (oneHotEncoder : Bool → V)
    (logisticRegression : Option ℕ → V) (makePipeline : V → V → V)
    (crossValidateF : V → V → V → Option ℕ → V) (getItem : V → String → V)
    (mean std : V → R) :
    notebook02Report readCsv getColumn dropColumns selectColumns
        standardScaler logisticRegression makePipeline crossValidateF
        getItem mean std =
      notebook02Composed readCsv getColumn dropColumns selectColumns
        standardScaler logisticRegression makePipeline crossValidateF
        getItem mean std ∧
    notebook03Report readCsv getColumn dropColumns selectObjectColumns
        selectColumnsBy oneHotEncoder logisticRegression makePipeline
        crossValidateF getItem mean std =
      notebook03Composed readCsv getColumn dropColumns selectObjectColumns
        selectColumnsBy oneHotEncoder logisticRegression makePipeline
        crossValidateF getItem mean std :=
  ⟨rfl, rfl⟩

/-! ### Exception propagation through the notebook statement sequences

The notebooks contain no `try`/`except`: each top-level statement binds a
variable to the result of library calls, and a raised exception aborts the
run, propagating unchanged, with no further binding performed. -/

/-- One notebook statement: a variable name bound to the result of
evaluating its right-hand side over the current environment; evaluation may
raise an exception of type `E`. -/
structure Stmt (E V : Type) where
  name : String
  eval : List (String × V) → Except E V

/-- Run a statement list in order: each success binds a variable; the first
exception aborts the run and is returned unchanged. -/
def runStmts {E V : Type} :
    List (Stmt E V) → List (String × V) → Except E (List (String × V))
  | [], env => Except.ok env
  | s :: rest, env =>
    match s.eval env with
    | Except.error e => Except.error e
    | Except.ok v => runStmts rest ((s.name, v) :: env)

/-- Read a variable from the environment; a missing name is a `NameError`
supplied by the caller. -/
def evalVar {E V : Type} (nameErr : E) (env : List (String × V))
    (x : String) : Except E V :=
  match env.lookup x with
  | some v => Except.ok v
  | none => Except.error nameErr

/-- The library surface the two notebooks call, with every call fallible. -/
structure NotebookLib (E V : Type) where
  nameErr : E
  readCsv : String → Except E V
  getColumn : V → String → Except E V
  dropColumns : V → String → Except E V
  selectColumns : V → List String → Except E V
  selectObjectColumns : V → Except E V
  selectColumnsBy : V → V → Except E V
  standardScaler : Except E V
  oneHotEncoder : Bool → Except E V
  logisticRegression : Option ℕ → Except E V
  makePipeline : V → V → Except E V
  crossValidate : V → V → V → Option ℕ → Except E V
  getItem : V → String → Except E V

/-- The statement sequence of notebook 02. -/
def stmts02 {E V : Type} (lib : NotebookLib E V) : List (Stmt E V) :=
  [⟨"adult_census", fun _ => lib.readCsv "../datasets/adult-census.csv"⟩,
   ⟨"target", fun env => do
      let df ← evalVar lib.nameErr env "adult_census"
      lib.getColumn df "class"⟩,
   ⟨"data", fun env => do
      let df ← evalVar lib.nameErr env "adult_census"
      lib.dropColumns df "class"⟩,
   ⟨"data_numeric", fun env => do
      let d ← evalVar lib.nameErr env "data"
      lib.selectColumns d numericalColumns⟩,
   ⟨"model", fun _ => do
      let sc ← lib.standardScaler
      let lr ← lib.logisticRegression none
      lib.makePipeline sc lr⟩,
   ⟨"cv_result", fun env => do
      let m ← evalVar lib.nameErr env "model"
      let d ← evalVar lib.nameErr env "data_numeric"
      let t ← evalVar lib.nameErr env "target"
      lib.crossValidate m d t (some 5)⟩,
   ⟨"scores", fun env => do
      let r ← evalVar lib.nameErr env "cv_result"
      lib.getItem r "test_score"⟩]

/-- The statement sequence of notebook 03 (note the rebinding of
`adult_census` after dropping `education-num`). -/
def stmts03 {E V : Type} (lib : NotebookLib E V) : List (Stmt E V) :=
  [⟨"adult_census", fun _ => lib.readCsv "../datasets/adult-census.csv"⟩,
   ⟨"adult_census", fun env => do
      let df ← evalVar lib.nameErr env "adult_census"
      lib.dropColumns df "education-num"⟩,
   ⟨"target", fun env => do
      let df ← evalVar lib.nameErr env "adult_census"
      lib.getColumn df "class"⟩,
   ⟨"data", fun env => do
      let df ← evalVar lib.nameErr env "adult_census"
      lib.dropColumns df "class"⟩,
   ⟨"categorical_columns", fun env => do
      let d ← evalVar lib.nameErr env "data"
      lib.selectObjectColumns d⟩,
   ⟨"data_categorical", fun env => do
      let d ← evalVar lib.nameErr env "data"
      let cols ← evalVar lib.nameErr env "categorical_columns"
      lib.selectColumnsBy d cols⟩,
   ⟨"model", fun _ => do
      let ohe ← lib.oneHotEncoder true
      let lr ← lib.logisticRegression (some 500)
      lib.makePipeline ohe lr⟩,
   ⟨"cv_results", fun env => do
      let m ← evalVar lib.nameErr env "model"
      let d ← evalVar lib.nameErr env "data_categorical"
      let t ← evalVar lib.nameErr env "target"
      lib.crossValidate m d t none⟩,
   ⟨"scores", fun env => do
      let r ← evalVar lib.nameErr env "cv_results"
      lib.getItem r "test_score"⟩]

theorem runStmts_cons {E V : Type} (s : Stmt E V) (rest : List (Stmt E V))
    (env : List (String × V)) :
    runStmts (s :: rest) env =
      match s.eval env with
      | Except.error e => Except.error e
      | Except.ok v => runStmts rest ((s.name, v) :: env) := rfl

theorem runStmts_append {E V : Type} (l1 l2 : List (Stmt E V))
    (env : List (String × V)) :
    runStmts (l1 ++ l2) env =
      match runStmts l1 env with
      | Except.error e => Except.error e
      | Except.ok env1 => runStmts l2 env1 := by
  induction l1 generalizing env with
  | nil => rfl
  | cons s rest ih =>
    rw [List.cons_append, runStmts_cons, runStmts_cons]
    cases s.eval env with
    | error e => rfl
    | ok v => exact ih ((s.name, v) :: env)

/-- A statement list propagates exceptions unchanged: if the statements
before `s` succeed, producing environment `env1`, and `s` raises `e`, the
whole run raises exactly `e`, performing no further binding. -/
def propagatesErrors {E V : Type} (stmts : List (Stmt E V)) : Prop :=
  ∀ (pre : List (Stmt E V)) (s : Stmt E V) (post : List (Stmt E V))
    (env env1 : List (String × V)) (e : E),
    stmts = pre ++ s :: post →
    runStmts pre env = Except.ok env1 →
    s.eval env1 = Except.error e →
    runStmts stmts env = Except.error e

theorem propagatesErrors_of_stmts {E V : Type} (stmts : List (Stmt E V)) :
    propagatesErrors stmts := by
  intro pre s post env env1 e hsplit hpre hs
  rw [hsplit, runStmts_append, hpre]
  show runStmts (s :: post) env1 = Except.error e
  unfold runStmts
  rw [hs]

/-- C5: both notebooks contain no failure handling of their own: any
exception raised by a library call in their statement sequences propagates
unchanged to the top level, and no further notebook-level binding happens
after the failing call. -/
theorem notebooks_propagate_exceptions {E V : Type} (lib : NotebookLib E V) :
    propagatesErrors (stmts02 lib) ∧ propagatesErrors (stmts03 lib) :=
  ⟨propagatesErrors_of_stmts _, propagatesErrors_of_stmts _⟩

/-- A concrete library whose `read_csv` raises, for the C5 witness. -/
def failingLib : NotebookLib String ℕ where
  nameErr := "NameError"
  readCsv := fun _ => Except.error "FileNotFoundError"
  getColumn := fun v _ => Except.ok v
  dropColumns := fun v _ => Except.ok v
  selectColumns := fun v _ => Except.ok v
  selectObjectColumns := fun v => Except.ok v
  selectColumnsBy := fun v _ => Except.ok v
  standardScaler := Except.ok 0
  oneHotEncoder := fun _ => Except.ok 0
  logisticRegression := fun _ => Except.ok 0
  makePipeline := fun v _ => Except.ok v
  crossValidate := fun v _ _ _ => Except.ok v
  getItem := fun v _ => Except.ok v

/-- Witness for C5: under `failingLib`, the exception of the very first
statement of each notebook propagates to the top level unchanged. -/
theorem notebooks_propagate_exceptions_witness :
    runStmts (stmts02 failingLib) [] = Except.error "FileNotFoundError" ∧
    runStmts (stmts03 failingLib) [] = Except.error "FileNotFoundError" :=
  ⟨(notebooks_propagate_exceptions failingLib).1 [] _ _ [] [] "FileNotFoundError"
      rfl rfl rfl,
   (notebooks_propagate_exceptions failingLib).2 [] _ _ [] [] "FileNotFoundError"
      rfl rfl rfl⟩
